import Mathlib

set_option allowUnsafeReducibility true

set_option maxRecDepth 100000

set_option linter.unnecessarySeqFocus false

attribute [local semireducible] Rat.add Rat.sub Rat.mul Rat.inv Rat.ofScientific

/-
Shallow embedding of the Graph-game physics core (src/public/physics.js),
together with reference definitions taken from the natural-language spec,
and theorems settling the frozen claims C1..C10.

Modelling conventions:
* JS f64 numbers are modelled by exact rationals.  Math.sqrt is an
  abstract parameter (msqrt); sqrtQ below is a concrete instance that is
  exact on perfect squares and is used for concrete witnesses.
* Equation.evaluate returns Option Rat: none models a non-finite result
  (NaN / Infinity) or a thrown evaluation error.  The equations produced
  by this repository's parser (src/unnamed/part_000) never throw - they
  catch internally and return NaN - so a single failure mode is faithful.
* Infinity as the initial "minimum distance" of the JS scanning loops is
  modelled by Option Rat with none meaning Infinity.
-/

namespace GraphGame

/-- Curve kind tag, mirroring the string field "type" of parsed equations. -/
inductive EqKind where
  | explicit_y
  | explicit_x
  | implicit
  | piecewise
deriving DecidableEq, Repr

/-- A 2-D point or vector with rational coordinates. -/
structure Point where
  x : ℚ
  y : ℚ
deriving DecidableEq, Repr

/-- A collectible star: position, radius, collected flag. -/
structure Star where
  x : ℚ
  y : ℚ
  radius : ℚ
  collected : Bool
deriving DecidableEq, Repr

/-- The duck-typed equation object consumed by the physics core: a kind
tag, a single-input evaluator (none = non-finite or failed), and the
implicit-curve point sampler getPoints(xMin, xMax, yMin, yMax, resolution). -/
structure Equation where
  type : EqKind
  evaluate : ℚ → Option ℚ
  getPoints : ℚ → ℚ → ℚ → ℚ → ℕ → List Point

/-- Result of a closest-point query: the point and its distance to the
marble; distance = none models the JS value Infinity (no valid sample). -/
structure ClosestPoint where
  x : ℚ
  y : ℚ
  distance : Option ℚ
deriving DecidableEq, Repr

/-- Per-tick candidate record built in Marble.update. -/
structure CandidatePath where
  equation : Equation
  closestPoint : ClosestPoint
  distance : Option ℚ

/-- World bounds rectangle. -/
structure Bounds where
  minX : ℚ
  maxX : ℚ
  minY : ℚ
  maxY : ℚ
deriving DecidableEq, Repr

/-- The marble state mutated once per tick by Marble.update. -/
structure Marble where
  position : Point
  velocity : Point
  radius : ℚ
  onPath : Bool
  currentEquation : Option Equation
  trail : List Point
  maxTrailLength : ℕ
  pathThreshold : ℚ
  timeOffPath : ℕ
  stars : List Star

/-- The Marble constructor: new Marble(x, y).  The stars field is unset in
the source (read back as this.stars or else the empty list), modelled as []. -/
def Marble.init (x y : ℚ) : Marble :=
  { position := ⟨x, y⟩
    velocity := ⟨(1/20), 0⟩
    radius := (3/20)
    onPath := false
    currentEquation := none
    trail := []
    maxTrailLength := 25
    pathThreshold := (4/5)
    timeOffPath := 0
    stars := [] }

/-- Fuel-driven integer square root by upward search, structurally
recursive so that it evaluates inside the kernel. -/
def isqrtGo (n : ℕ) : ℕ → ℕ → ℕ
  | 0, acc => acc
  | fuel + 1, acc =>
    if (acc + 1) * (acc + 1) ≤ n then isqrtGo n fuel (acc + 1) else acc

/-- Floor integer square root. -/
def isqrt (n : ℕ) : ℕ := isqrtGo n n 0

/-- A concrete square-root function on rationals, exact on perfect squares
(numerator and denominator of a reduced square are themselves squares).
Used to instantiate the abstract Math.sqrt parameter in witnesses. -/
def sqrtQ (q : ℚ) : ℚ :=
  (isqrt q.num.toNat : ℚ) / (isqrt q.den : ℚ)

/-- Comparison d < m where m : Option Rat models a possibly-Infinity bound
(none = Infinity, so the comparison is true). -/
def ltOpt (d : ℚ) : Option ℚ → Bool
  | none => true
  | some m => decide (d < m)

namespace PhysicsEngine

/-- Constructor constant this.gravity. -/
def gravity : ℚ := -(3/20)

/-- Constructor constant this.friction. -/
def friction : ℚ := (49/50)

/-- Constructor constant this.bounceThreshold. -/
def bounceThreshold : ℚ := (1/2)

/-- Constructor constant this.pathSnapStrength. -/
def pathSnapStrength : ℚ := (3/10)

/-- Constructor constant this.pathFollowSpeed. -/
def pathFollowSpeed : ℚ := (3/25)

/-- applyGravity(marble): velocity.y += gravity. -/
def applyGravity (m : Marble) : Marble :=
  { m with velocity := ⟨m.velocity.x, m.velocity.y + gravity⟩ }

/-- applyFriction(marble): both velocity components times friction. -/
def applyFriction (m : Marble) : Marble :=
  { m with velocity := ⟨m.velocity.x * friction, m.velocity.y * friction⟩ }

/-- updatePosition(marble, dt): position += velocity * dt. -/
def updatePosition (m : Marble) (dt : ℚ) : Marble :=
  { m with position := ⟨m.position.x + m.velocity.x * dt,
                        m.position.y + m.velocity.y * dt⟩ }

/-- checkBounds(marble, bounds): false when strictly outside an edge. -/
def checkBounds (m : Marble) (bounds : Bounds) : Bool :=
  if m.position.x < bounds.minX ∨ m.position.x > bounds.maxX ∨
     m.position.y < bounds.minY ∨ m.position.y > bounds.maxY then
    false
  else
    true

/-- checkCollision(marble, star): center distance below the radius sum. -/
def checkCollision (msqrt : ℚ → ℚ) (m : Marble) (star : Star) : Bool :=
  let dx := m.position.x - star.x
  let dy := m.position.y - star.y
  let distance := msqrt (dx * dx + dy * dy)
  decide (distance < m.radius + star.radius)

/-- calculateDerivative(equation, x, dx): central difference; 0 when either
half-step evaluation fails (non-finite in the source, or thrown). -/
def calculateDerivative (eq : Equation) (x dx : ℚ) : ℚ :=
  match eq.evaluate (x - dx / 2), eq.evaluate (x + dx / 2) with
  | some y1, some y2 => (y2 - y1) / dx
  | _, _ => 0

/-- calculateDerivativeX(equation, y, dy): central difference in y. -/
def calculateDerivativeX (eq : Equation) (y dy : ℚ) : ℚ :=
  match eq.evaluate (y - dy / 2), eq.evaluate (y + dy / 2) with
  | some x1, some x2 => (x2 - x1) / dy
  | _, _ => 0

/-- The body of the pair loop of calculateImplicitVelocity: when the pair
is nonzero and the distance in x of its second point (points[i]) to the
query beats the running minimum (initially Infinity, modelled by none),
record its normalized delta as the best direction. -/
def implicitStep (msqrt : ℚ → ℚ) (x : ℚ) (acc : Point × Option ℚ)
    (pr : Point × Point) : Point × Option ℚ :=
  let dx := pr.2.x - pr.1.x
  let dy := pr.2.y - pr.1.y
  let distance := |pr.2.x - x|
  if ltOpt distance acc.2 ∧ (dx ≠ 0 ∨ dy ≠ 0) then
    let magnitude := msqrt (dx * dx + dy * dy)
    (⟨dx / magnitude, dy / magnitude⟩, some distance)
  else
    acc

/-- calculateImplicitVelocity(equation, x, speed): estimate the tangent from
consecutive sampled point pairs, keeping the pair whose SECOND point
(points[i]) is closest in x to the query, first-seen wins on ties. -/
def calculateImplicitVelocity (msqrt : ℚ → ℚ) (eq : Equation) (x speed : ℚ) :
    Point :=
  let step : ℚ := (1/10)
  let points := eq.getPoints (x - step) (x + step) (-10) 10 20
  if points.length < 2 then
    ⟨speed, 0⟩
  else
    let best := (points.zip points.tail).foldl (implicitStep msqrt x)
      (⟨1, 0⟩, none)
    ⟨speed * best.1.x, speed * best.1.y⟩

/-- calculatePathVelocity(equation, x, speed): per-kind tangent velocity.
The JS default speed argument is null, and speed or-else pathFollowSpeed is
falsy-defaulting, so speed = 0 also falls back to pathFollowSpeed.  In the
explicit-x branch a non-finite evaluate result propagates NaN into
calculateDerivativeX, which then returns 0; modelled by taking 0 directly. -/
def calculatePathVelocity (msqrt : ℚ → ℚ) (eq : Equation) (x : ℚ)
    (speed : Option ℚ) : Point :=
  let actualSpeed : ℚ :=
    match speed with
    | some s => if s = 0 then pathFollowSpeed else s
    | none => pathFollowSpeed
  match eq.type with
  | .explicit_y | .piecewise =>
    let derivative := calculateDerivative eq x (1/100)
    let magnitude := msqrt (1 + derivative * derivative)
    ⟨actualSpeed / magnitude, (actualSpeed * derivative) / magnitude⟩
  | .explicit_x =>
    let dxdy : ℚ :=
      match eq.evaluate x with
      | some y => calculateDerivativeX eq y (1/100)
      | none => 0
    let dydx : ℚ := if dxdy ≠ 0 then 1 / dxdy else 0
    let mag := msqrt (1 + dydx * dydx)
    ⟨actualSpeed / mag, (actualSpeed * dydx) / mag⟩
  | .implicit => calculateImplicitVelocity msqrt eq x actualSpeed

end PhysicsEngine

/-- The exact values visited by a JS loop for (let v = start; v <= stop; v += step)
with step > 0: start + k * step for k = 0 .. floor((stop - start) / step). -/
def gridPoints (start stop step : ℚ) : List ℚ :=
  if stop < start then []
  else (List.range (((stop - start) / step).floor.toNat + 1)).map
    (fun k => start + (k : ℚ) * step)

namespace PhysicsEngine

/-- The msqrt Euclidean distance from the sample (x, y) to the marble. -/
def scanDist (msqrt : ℚ → ℚ) (marbleX marbleY x y : ℚ) : ℚ :=
  msqrt ((x - marbleX) ^ 2 + (y - marbleY) ^ 2)

/-- The body of the scanning loop of findClosestPointExplicitY: when the
evaluation succeeds and the distance beats the running minimum (initially
Infinity, modelled by none), record the sample x and its distance. -/
def scanStep (msqrt : ℚ → ℚ) (eq : Equation) (marbleX marbleY : ℚ)
    (acc : ℚ × Option ℚ) (x : ℚ) : ℚ × Option ℚ :=
  match eq.evaluate x with
  | some y =>
    let distance := scanDist msqrt marbleX marbleY x y
    if ltOpt distance acc.2 then (x, some distance) else acc
  | none => acc

/-- findClosestPointExplicitY(marble, equation, searchRadius): scan x over
[max(-10, mx - r), min(10, mx + r)] in steps of (1/20), keep the first
minimizer of the msqrt Euclidean distance among samples whose evaluation
succeeds, and return it with its distance (none = Infinity when no sample
succeeded); the final re-evaluation failing yields none. -/
def findClosestPointExplicitY (msqrt : ℚ → ℚ) (m : Marble) (eq : Equation)
    (searchRadius : ℚ) : Option ClosestPoint :=
  let marbleX := m.position.x
  let marbleY := m.position.y
  let startX := max (-10) (marbleX - searchRadius)
  let endX := min 10 (marbleX + searchRadius)
  let res := (gridPoints startX endX (1/20)).foldl
    (scanStep msqrt eq marbleX marbleY) (marbleX, none)
  match eq.evaluate res.1 with
  | some closestY => some ⟨res.1, closestY, res.2⟩
  | none => none

/-- findClosestPointExplicitX(marble, equation, searchRadius): the symmetric
scan over y. -/
def findClosestPointExplicitX (msqrt : ℚ → ℚ) (m : Marble) (eq : Equation)
    (searchRadius : ℚ) : Option ClosestPoint :=
  let marbleX := m.position.x
  let marbleY := m.position.y
  let startY := max (-10) (marbleY - searchRadius)
  let endY := min 10 (marbleY + searchRadius)
  let res := (gridPoints startY endY (1/20)).foldl
    (fun (acc : ℚ × Option ℚ) y =>
      match eq.evaluate y with
      | some x =>
        let distance := msqrt ((x - marbleX) ^ 2 + (y - marbleY) ^ 2)
        if ltOpt distance acc.2 then (y, some distance) else acc
      | none => acc)
    (marbleY, none)
  match eq.evaluate res.1 with
  | some closestX => some ⟨closestX, res.1, res.2⟩
  | none => none

/-- findClosestPointImplicit(marble, equation, searchRadius): minimal-distance
sample from getPoints over the square window, none when no samples. -/
def findClosestPointImplicit (msqrt : ℚ → ℚ) (m : Marble) (eq : Equation)
    (searchRadius : ℚ) : Option ClosestPoint :=
  let marbleX := m.position.x
  let marbleY := m.position.y
  let points := eq.getPoints (marbleX - searchRadius) (marbleX + searchRadius)
    (marbleY - searchRadius) (marbleY + searchRadius) 50
  match points with
  | [] => none
  | p0 :: rest =>
    let d0 := msqrt ((p0.x - marbleX) ^ 2 + (p0.y - marbleY) ^ 2)
    let best := rest.foldl
      (fun (acc : Point × ℚ) p =>
        let distance := msqrt ((p.x - marbleX) ^ 2 + (p.y - marbleY) ^ 2)
        if distance < acc.2 then (p, distance) else acc)
      (p0, d0)
    some ⟨best.1.x, best.1.y, some best.2⟩

/-- findClosestPointOnPath(marble, equation, searchRadius): kind dispatch. -/
def findClosestPointOnPath (msqrt : ℚ → ℚ) (m : Marble) (eq : Equation)
    (searchRadius : ℚ) : Option ClosestPoint :=
  match eq.type with
  | .explicit_y | .piecewise => findClosestPointExplicitY msqrt m eq searchRadius
  | .explicit_x => findClosestPointExplicitX msqrt m eq searchRadius
  | .implicit => findClosestPointImplicit msqrt m eq searchRadius

/-- samplePathPoints(equation, startX, distance, numSamples): lookahead
samples along the path, per kind. -/
def samplePathPoints (eq : Equation) (startX distance : ℚ) (numSamples : ℕ) :
    List Point :=
  match eq.type with
  | .explicit_y | .piecewise =>
    let step := distance / (numSamples : ℚ)
    (List.range (numSamples + 1)).filterMap
      (fun i =>
        let x := startX + (i : ℚ) * step
        match eq.evaluate x with
        | some y => some ⟨x, y⟩
        | none => none)
  | .explicit_x =>
    let yStep := distance / (numSamples : ℚ)
    (List.range (numSamples + 1)).filterMap
      (fun i =>
        let y := -10 + (i : ℚ) * yStep
        match eq.evaluate y with
        | some x =>
          if startX ≤ x ∧ x ≤ startX + distance then some ⟨x, y⟩ else none
        | none => none)
  | .implicit => eq.getPoints startX (startX + distance) (-10) 10 numSamples

/-- Minimum msqrt distance from any of the sample points to the star
(none = Infinity when the sample list is empty). -/
def minDistToStar (msqrt : ℚ → ℚ) (pts : List Point) (s : Star) : Option ℚ :=
  pts.foldl
    (fun acc p =>
      let d := msqrt ((p.x - s.x) ^ 2 + (p.y - s.y) ^ 2)
      match acc with
      | none => some d
      | some best => some (min best d))
    none

/-- The body of the per-star forEach loop of calculatePathScore: add the
proximity bonus when the minimum lookahead-sample distance is below 2, then
add 10 times the dot product of the marble-to-star direction with the path
direction at the candidate's closest point when that dot product is
positive. -/
def starScoreStep (msqrt : ℚ → ℚ) (m : Marble) (pathData : CandidatePath)
    (samplePoints : List Point) (score : ℚ) (star : Star) : ℚ :=
  let score :=
    match minDistToStar msqrt samplePoints star with
    | some minDistanceToStar =>
      if minDistanceToStar < 2 then
        score + (2 - minDistanceToStar) * 100
      else score
    | none => score
  let directionToStar : Point :=
    ⟨star.x - m.position.x, star.y - m.position.y⟩
  let pathDirection :=
    calculatePathVelocity msqrt pathData.equation pathData.closestPoint.x none
  let dotProduct := directionToStar.x * pathDirection.x +
    directionToStar.y * pathDirection.y
  if dotProduct > 0 then score + dotProduct * 10 else score

/-- calculatePathScore(marble, pathData, stars): proximity bonus for
lookahead samples approaching uncollected stars plus a dot-product bonus
with the path velocity at the candidate's closest point. -/
def calculatePathScore (msqrt : ℚ → ℚ) (m : Marble) (pathData : CandidatePath)
    (stars : List Star) : ℚ :=
  let uncollectedStars := stars.filter (fun s => !s.collected)
  if uncollectedStars.isEmpty then 0
  else
    let samplePoints := samplePathPoints pathData.equation m.position.x 5 20
    uncollectedStars.foldl (starScoreStep msqrt m pathData samplePoints) 0

/-- The body of the forEach loop of findBestPathTowardStars: replace the
running best (none models bestScore = -Infinity) when the score is strictly
greater. -/
def bestStep {α : Type} (f : α → ℚ) (acc : Option (α × ℚ)) (a : α) :
    Option (α × ℚ) :=
  let score := f a
  match acc with
  | none => some (a, score)
  | some best => if score > best.2 then some (a, score) else acc

/-- findBestPathTowardStars(marble, candidatePaths, stars): head for at most
one candidate, otherwise the first strict-maximum-score candidate (bestScore
starts at -Infinity, modelled by the none accumulator). -/
def findBestPathTowardStars (msqrt : ℚ → ℚ) (m : Marble)
    (candidatePaths : List CandidatePath) (stars : List Star) :
    Option CandidatePath :=
  if candidatePaths.length ≤ 1 then candidatePaths.head?
  else
    (candidatePaths.foldl
      (bestStep (fun pathData => calculatePathScore msqrt m pathData stars))
      none).map Prod.fst

end PhysicsEngine

namespace Marble

/-- Trail bookkeeping at the top of Marble.update: push the position, shift
the oldest entry out when over capacity. -/
def pushTrail (m : Marble) : List Point :=
  let t := m.trail ++ [m.position]
  if t.length > m.maxTrailLength then t.tail else t

/-- The candidate collection loop of Marble.update: closest points of all
equations whose distance is below the marble's pathThreshold (Infinity,
modelled as none, never passes). -/
def candidatePathsFor (msqrt : ℚ → ℚ) (equations : List Equation) (m : Marble) :
    List CandidatePath :=
  equations.filterMap
    (fun eq =>
      match PhysicsEngine.findClosestPointOnPath msqrt m eq 2 with
      | some closestPoint =>
        match closestPoint.distance with
        | some d =>
          if d < m.pathThreshold then
            some ⟨eq, closestPoint, some d⟩
          else none
        | none => none
      | none => none)

/-- The path selection step of Marble.update: findBestPathTowardStars when
any candidate exists, reading this.stars (or else []). -/
def selectBestPath (msqrt : ℚ → ℚ) (equations : List Equation) (m : Marble) :
    Option CandidatePath :=
  let candidatePaths := candidatePathsFor msqrt equations m
  if candidatePaths.isEmpty then none
  else PhysicsEngine.findBestPathTowardStars msqrt m candidatePaths m.stars

/-- The branching phase of Marble.update: trail push, path selection, then
either the on-path snap-and-blend or freefall gravity plus air resistance.
Friction, position integration and the anti-stall nudge come after. -/
def updateVelocityPhase (msqrt : ℚ → ℚ) (equations : List Equation)
    (m : Marble) : Marble :=
  let trail := pushTrail m
  let wasOnPath := m.onPath
  match selectBestPath msqrt equations m with
  | some bestPathData =>
    let bestPoint := bestPathData.closestPoint
    let posX := m.position.x +
      (bestPoint.x - m.position.x) * PhysicsEngine.pathSnapStrength
    let posY := m.position.y +
      (bestPoint.y - m.position.y) * PhysicsEngine.pathSnapStrength
    let pathVel :=
      PhysicsEngine.calculatePathVelocity msqrt bestPathData.equation posX none
    let blendFactor : ℚ := if wasOnPath then (4/5) else (1/2)
    { m with
      trail := trail
      onPath := true
      currentEquation := some bestPathData.equation
      timeOffPath := 0
      position := ⟨posX, posY⟩
      velocity := ⟨m.velocity.x * (1 - blendFactor) + pathVel.x * blendFactor,
                   m.velocity.y * (1 - blendFactor) + pathVel.y * blendFactor +
                     PhysicsEngine.gravity * (3/10)⟩ }
  | none =>
    let m1 := PhysicsEngine.applyGravity m
    { m1 with
      trail := trail
      onPath := false
      currentEquation := none
      timeOffPath := m.timeOffPath + 1
      velocity := ⟨m1.velocity.x * (199/200), m1.velocity.y * (199/200)⟩ }

/-- Marble.update before the anti-stall nudge: branch phase, then friction,
then position integration with dt = 1. -/
def updatePreNudge (msqrt : ℚ → ℚ) (equations : List Equation) (m : Marble) :
    Marble :=
  PhysicsEngine.updatePosition
    (PhysicsEngine.applyFriction (updateVelocityPhase msqrt equations m)) 1

/-- The anti-stall nudge closing Marble.update: when both velocity
components are below (1/1000) in magnitude, add (1/100) to velocity.x. -/
def nudgeStep (m : Marble) : Marble :=
  if |m.velocity.x| < (1/1000) ∧ |m.velocity.y| < (1/1000) then
    { m with velocity := ⟨m.velocity.x + (1/100), m.velocity.y⟩ }
  else m

/-- Marble.update(physics, equations): one full simulation tick. -/
def update (msqrt : ℚ → ℚ) (equations : List Equation) (m : Marble) : Marble :=
  nudgeStep (updatePreNudge msqrt equations m)

end Marble

/-- One step of first-seen strict-minimum selection. -/
def argminStep {α : Type} (f : α → ℚ) (acc : Option α) (a : α) : Option α :=
  match acc with
  | none => some a
  | some b => if f a < f b then some a else acc

/-- First element of the list minimizing f, earlier elements winning ties
(selection is by strict comparison against the current best). -/
def argminFirst {α : Type} (f : α → ℚ) (l : List α) : Option α :=
  l.foldl (argminStep f) none

/-- First element of the list maximizing f, earlier elements winning ties. -/
def argmaxFirst {α : Type} (f : α → ℚ) : List α → Option α
  | [] => none
  | a :: rest =>
    match argmaxFirst f rest with
    | none => some a
    | some b => if f b > f a then some b else some a

/-- Reference per-star score, written from the spec text: (2 - d) * 100
when the minimum lookahead-sample distance d to the star is below 2, plus
10 times the dot product of the marble-to-star vector with the given
tangent vector whenever that dot product is positive. -/
def refStarScore (msqrt : ℚ → ℚ) (tangent : Point) (m : Marble)
    (samples : List Point) (star : Star) : ℚ :=
  let proximity : ℚ :=
    match PhysicsEngine.minDistToStar msqrt samples star with
    | some d => if d < 2 then (2 - d) * 100 else 0
    | none => 0
  let dotProduct := (star.x - m.position.x) * tangent.x +
    (star.y - m.position.y) * tangent.y
  proximity + (if dotProduct > 0 then dotProduct * 10 else 0)

/-- The spec-shaped total path score parametrized by the speed given to the
tangent computation: the sum over uncollected stars of refStarScore. -/
def refPathScore (msqrt : ℚ → ℚ) (speed : Option ℚ) (m : Marble)
    (pathData : CandidatePath) (stars : List Star) : ℚ :=
  let uncollected := stars.filter (fun s => !s.collected)
  if uncollected.isEmpty then 0
  else
    let samples := PhysicsEngine.samplePathPoints pathData.equation m.position.x 5 20
    let tangent :=
      PhysicsEngine.calculatePathVelocity msqrt pathData.equation
        pathData.closestPoint.x speed
    (uncollected.map (refStarScore msqrt tangent m samples)).sum

/-- The path score exactly as the spec sentence of claim C1 words it: the
tangent factor is the unit tangent direction, i.e. calculatePathVelocity
scaled to speed 1. -/
def refPathScoreSpec (msqrt : ℚ → ℚ) (m : Marble) (pathData : CandidatePath)
    (stars : List Star) : ℚ :=
  refPathScore msqrt (some 1) m pathData stars

/-- The amended path score: as claim C1 but with the tangent factor being
the path tangent velocity at the default pathFollowSpeed, i.e. the unit
tangent scaled by (3/25), as the source computes it. -/
def refPathScoreAmended (msqrt : ℚ → ℚ) (m : Marble) (pathData : CandidatePath)
    (stars : List Star) : ℚ :=
  refPathScore msqrt none m pathData stars

/-- Nonzero test for a consecutive point pair, matching the source's
(dx !== 0 || dy !== 0) guard. -/
def pairNonzero (pr : Point × Point) : Bool :=
  decide (pr.2.x - pr.1.x ≠ 0 ∨ pr.2.y - pr.1.y ≠ 0)

/-- Reference implicit tangent written from the spec text with the pair
distance as a parameter: sample the point cloud, fall back to (speed, 0)
below 2 points, then among consecutive nonzero pairs pick the first
minimizer of fdist and return the normalized delta scaled by speed. -/
def refImplicitTangent (msqrt : ℚ → ℚ) (fdist : ℚ → Point × Point → ℚ)
    (eq : Equation) (x speed : ℚ) : Point :=
  let points := eq.getPoints (x - (1/10)) (x + (1/10)) (-10) 10 20
  if points.length < 2 then ⟨speed, 0⟩
  else
    match argminFirst (fdist x) ((points.zip points.tail).filter pairNonzero) with
    | none => ⟨speed, 0⟩
    | some pr =>
      let dx := pr.2.x - pr.1.x
      let dy := pr.2.y - pr.1.y
      let magnitude := msqrt (dx * dx + dy * dy)
      ⟨speed * (dx / magnitude), speed * (dy / magnitude)⟩

/-- The implicit tangent estimate exactly as claim C5 words it: the pair is
chosen by the distance in x of its FIRST point to the query. -/
def refImplicitTangentSpec (msqrt : ℚ → ℚ) (eq : Equation) (x speed : ℚ) :
    Point :=
  refImplicitTangent msqrt (fun q pr => |pr.1.x - q|) eq x speed

/-- The amended implicit tangent: the pair is chosen by the distance in x of
its SECOND point to the query, as the source computes it. -/
def refImplicitTangentAmended (msqrt : ℚ → ℚ) (eq : Equation) (x speed : ℚ) :
    Point :=
  refImplicitTangent msqrt (fun q pr => |pr.2.x - q|) eq x speed

/-- The horizontal line y = 0 as an explicit-y equation object (the parser
output for the input string y = 0). -/
def constEq0 : Equation := ⟨.explicit_y, fun _ => some 0, fun _ _ _ _ _ => []⟩

/-- The identity curve y = x as an explicit-y equation object. -/
def idEq : Equation := ⟨.explicit_y, fun q => some q, fun _ _ _ _ _ => []⟩

/-- An implicit equation object whose point sampler returns a fixed cloud
of three points; used to separate the two pair-selection rules of C5. -/
def implicitCloudEq : Equation :=
  ⟨.implicit, fun _ => none, fun _ _ _ _ _ => [⟨9, 0⟩, ⟨0, 0⟩, ⟨0, 7⟩]⟩

/-- A marble freshly constructed at the origin. -/
def mW : Marble := Marble.init 0 0

/-- The candidate record the update loop builds for mW on the curve y = 0. -/
def pdW : CandidatePath := ⟨constEq0, ⟨0, 0, some 0⟩, some 0⟩

/-- A second candidate record for tie-breaking witnesses. -/
def pdW2 : CandidatePath := ⟨constEq0, ⟨1, 0, some 1⟩, some 1⟩

/-- One uncollected star at (3, 0). -/
def starsW : List Star := [⟨3, 0, (1/5), false⟩]

/-- The marble of claim C2: velocity ((1/2000), (-(3/10000))). -/
def mC2 : Marble := { Marble.init 0 0 with velocity := ⟨(1/2000), (-(3/10000))⟩ }

/-- A marble whose post-friction freefall velocity is exactly (0, 0), so the
anti-stall nudge fires. -/
def mStall : Marble := { Marble.init 0 0 with velocity := ⟨0, (3/20)⟩ }

/-- Claim C8: checkBounds returns true exactly when the marble's position
lies in the closed rectangle spanned by the bounds, so the boundary itself
is in bounds and any position strictly beyond an edge is out of bounds. -/
theorem checkBounds_iff_in_rect (m : Marble) (bounds : Bounds) :
    PhysicsEngine.checkBounds m bounds = true ↔
      bounds.minX ≤ m.position.x ∧ m.position.x ≤ bounds.maxX ∧
      bounds.minY ≤ m.position.y ∧ m.position.y ≤ bounds.maxY := by
  unfold PhysicsEngine.checkBounds
  split
  · rename_i h
    simp only [Bool.false_eq_true, false_iff]
    intro hc
    rcases h with h | h | h | h
    · exact absurd hc.1 (not_le.mpr h)
    · exact absurd hc.2.1 (not_le.mpr h)
    · exact absurd hc.2.2.1 (not_le.mpr h)
    · exact absurd hc.2.2.2 (not_le.mpr h)
  · rename_i h
    push_neg at h
    simp only [true_iff]
    exact ⟨h.1, h.2.1, h.2.2.1, h.2.2.2⟩

/-- The trail after a push never exceeds the capacity it respected before. -/
theorem pushTrail_length_le (m : Marble)
    (h : m.trail.length ≤ m.maxTrailLength) :
    (Marble.pushTrail m).length ≤ m.maxTrailLength := by
  unfold Marble.pushTrail
  show (if (m.trail ++ [m.position]).length > m.maxTrailLength then
      (m.trail ++ [m.position]).tail
    else m.trail ++ [m.position]).length ≤ m.maxTrailLength
  split
  · rename_i hlen
    rw [List.length_tail, List.length_append] at *
    simp only [List.length_singleton] at *
    omega
  · rename_i hlen
    rw [List.length_append] at hlen ⊢
    simp only [List.length_singleton] at hlen ⊢
    omega

/-- Every phase of the tick after the trail push leaves the trail alone. -/
theorem update_trail_eq_pushTrail (msqrt : ℚ → ℚ) (equations : List Equation)
    (m : Marble) :
    (Marble.update msqrt equations m).trail = Marble.pushTrail m := by
  unfold Marble.update Marble.nudgeStep Marble.updatePreNudge
    PhysicsEngine.updatePosition PhysicsEngine.applyFriction
    Marble.updateVelocityPhase
  split <;> split <;> rfl

/-- Claim C9: a tick preserves the trail capacity invariant: if the trail
has at most maxTrailLength entries before Marble.update, it still has at
most maxTrailLength entries afterwards. -/
theorem update_trail_length_invariant (msqrt : ℚ → ℚ)
    (equations : List Equation) (m : Marble)
    (h : m.trail.length ≤ m.maxTrailLength) :
    (Marble.update msqrt equations m).trail.length ≤ m.maxTrailLength := by
  rw [update_trail_eq_pushTrail]
  exact pushTrail_length_le m h

/-- Witness for claim C9 at a freshly constructed marble. -/
theorem update_trail_length_invariant_witness :
    (Marble.init 0 0).trail.length ≤ (Marble.init 0 0).maxTrailLength ∧
    (Marble.update sqrtQ [] (Marble.init 0 0)).trail.length ≤
      (Marble.init 0 0).maxTrailLength :=
  ⟨by decide, update_trail_length_invariant sqrtQ [] (Marble.init 0 0) (by decide)⟩

/-- Counterexample to claim C3 as stated: for the constant equation y = 0 at
x = 0 both half-step samples evaluate to a finite value, yet
calculateDerivative returns 0, so a zero result does not imply a failed or
non-finite sample. -/
theorem calculateDerivative_zero_with_finite_samples :
    PhysicsEngine.calculateDerivative constEq0 0 (1/100) = 0 ∧
    (constEq0.evaluate (0 - (1/100) / 2)).isSome = true ∧
    (constEq0.evaluate (0 + (1/100) / 2)).isSome = true := by decide

/-- Claim C3 amended: calculateDerivative returns 0 if either half-step
sample fails (non-finite or raising, modelled by none), and otherwise
returns the central difference, which can itself be 0; in the exact
rational model no NaN is ever produced. -/
theorem calculateDerivative_amended (eq : Equation) (x : ℚ) :
    ((eq.evaluate (x - (1/100) / 2) = none ∨ eq.evaluate (x + (1/100) / 2) = none) →
      PhysicsEngine.calculateDerivative eq x (1/100) = 0) ∧
    (∀ y1 y2, eq.evaluate (x - (1/100) / 2) = some y1 →
      eq.evaluate (x + (1/100) / 2) = some y2 →
      PhysicsEngine.calculateDerivative eq x (1/100) = (y2 - y1) / (1/100)) := by
  constructor
  · intro h
    unfold PhysicsEngine.calculateDerivative
    rcases h1 : eq.evaluate (x - (1/100) / 2) with _ | y1 <;>
      rcases h2 : eq.evaluate (x + (1/100) / 2) with _ | y2
    · rfl
    · rfl
    · rfl
    · rcases h with h | h
      · rw [h] at h1
        exact Option.noConfusion h1
      · rw [h] at h2
        exact Option.noConfusion h2
  · intro y1 y2 h1 h2
    unfold PhysicsEngine.calculateDerivative
    rw [h1, h2]

/-- Witness for the amended claim C3 on the identity curve at x = 0, where
the central difference is (0.005 - (-0.005)) / (1/100) = 1. -/
theorem calculateDerivative_amended_witness :
    idEq.evaluate (0 - (1/100) / 2) = some (-(1 / 200)) ∧
    idEq.evaluate (0 + (1/100) / 2) = some (1 / 200) ∧
    PhysicsEngine.calculateDerivative idEq 0 (1/100) = (1 / 200 - -(1 / 200)) / (1/100) :=
  ⟨by decide, by decide,
    (calculateDerivative_amended idEq 0).2 (-(1 / 200)) (1 / 200)
      (by decide) (by decide)⟩

/-- Counterexample to claim C2 as stated: for the marble with velocity
((1/2000), (-(3/10000))) and no paths at all, after one tick the velocity.x
magnitude is below (1/100) and velocity.x was not nudged by (1/100) over its
pre-nudge value, because gravity lifted |velocity.y| above the anti-stall
threshold. -/
theorem antiStall_slow_marble_cex :
    ¬(|(Marble.update sqrtQ [] mC2).velocity.x| ≥ (1/100) ∨
      (Marble.update sqrtQ [] mC2).velocity.x =
        (Marble.updatePreNudge sqrtQ [] mC2).velocity.x + (1/100)) := by decide

/-- Claim C2 amended: for a marble with velocity ((1/2000), (-(3/10000))) at the
start of a tick and no candidate path within its path threshold, the
anti-stall nudge does not fire: gravity leaves the post-friction
|velocity.y| at or above (1/1000), so velocity.x keeps its pre-nudge value
(1/2000) * (199/200) * (49/50), whose magnitude stays below (1/100). -/
theorem antiStall_slow_marble_amended (msqrt : ℚ → ℚ)
    (equations : List Equation) (m : Marble)
    (hv : m.velocity = ⟨(1/2000), (-(3/10000))⟩)
    (hc : Marble.candidatePathsFor msqrt equations m = []) :
    (Marble.update msqrt equations m).velocity.x =
      (Marble.updatePreNudge msqrt equations m).velocity.x ∧
    (Marble.update msqrt equations m).velocity.x = (1/2000) * (199/200) * (49/50) ∧
    |(Marble.update msqrt equations m).velocity.x| < (1/100) ∧
    (1/1000) ≤ |(Marble.updatePreNudge msqrt equations m).velocity.y| := by
  have hsel : Marble.selectBestPath msqrt equations m = none := by
    unfold Marble.selectBestPath
    rw [hc]
    rfl
  have hpre : (Marble.updatePreNudge msqrt equations m).velocity =
      ⟨9751 / 20000000, -(14655753 / 100000000)⟩ := by
    unfold Marble.updatePreNudge Marble.updateVelocityPhase
      PhysicsEngine.updatePosition PhysicsEngine.applyFriction
      PhysicsEngine.applyGravity
    rw [hsel, hv]
    show (⟨((1/2000) * (199/200)) * PhysicsEngine.friction,
      (((-(3/10000)) + PhysicsEngine.gravity) * (199/200)) * PhysicsEngine.friction⟩ : Point) = _
    rw [PhysicsEngine.friction, PhysicsEngine.gravity]
    norm_num
  have hcond : ¬(|(Marble.updatePreNudge msqrt equations m).velocity.x| < (1/1000) ∧
      |(Marble.updatePreNudge msqrt equations m).velocity.y| < (1/1000)) := by
    rw [hpre]
    show ¬(|(9751 / 20000000 : ℚ)| < (1/1000) ∧ |(-(14655753 / 100000000) : ℚ)| < (1/1000))
    decide
  have hupd : Marble.update msqrt equations m =
      Marble.updatePreNudge msqrt equations m := by
    unfold Marble.update Marble.nudgeStep
    rw [if_neg hcond]
  refine ⟨by rw [hupd], ?_, ?_, ?_⟩
  · rw [hupd, hpre]
    norm_num
  · rw [hupd, hpre]
    show |(9751 / 20000000 : ℚ)| < (1/100)
    decide
  · rw [hpre]
    show ((1/1000) : ℚ) ≤ |(-(14655753 / 100000000) : ℚ)|
    decide

/-- Witness for the amended claim C2 at the concrete marble and an empty
equation list. -/
theorem antiStall_slow_marble_amended_witness :
    mC2.velocity = ⟨(1/2000), (-(3/10000))⟩ ∧
    Marble.candidatePathsFor sqrtQ [] mC2 = [] ∧
    (Marble.update sqrtQ [] mC2).velocity.x = (1/2000) * (199/200) * (49/50) :=
  ⟨by decide, rfl,
    (antiStall_slow_marble_amended sqrtQ [] mC2 (by decide) rfl).2.1⟩

/-- Claim C10: at the end of every tick it is never the case that both
velocity components are below (1/1000) in magnitude; the nudge raises
velocity.x by exactly (1/100) over its pre-nudge value exactly when both
post-friction components are below (1/1000) in magnitude. -/
theorem update_velocity_never_both_tiny (msqrt : ℚ → ℚ)
    (equations : List Equation) (m : Marble) :
    ((Marble.update msqrt equations m).velocity.x =
        (Marble.updatePreNudge msqrt equations m).velocity.x + (1/100) ↔
      (|(Marble.updatePreNudge msqrt equations m).velocity.x| < (1/1000) ∧
       |(Marble.updatePreNudge msqrt equations m).velocity.y| < (1/1000))) ∧
    ¬(|(Marble.update msqrt equations m).velocity.x| < (1/1000) ∧
      |(Marble.update msqrt equations m).velocity.y| < (1/1000)) := by
  set p := Marble.updatePreNudge msqrt equations m with hp
  unfold Marble.update
  rw [← hp]
  unfold Marble.nudgeStep
  by_cases h : |p.velocity.x| < (1/1000) ∧ |p.velocity.y| < (1/1000)
  · rw [if_pos h]
    constructor
    · exact iff_of_true rfl h
    · show ¬(|p.velocity.x + (1/100)| < (1/1000) ∧ |p.velocity.y| < (1/1000))
      rintro ⟨h1, _⟩
      have hx := abs_lt.mp h.1
      have hx1 := abs_lt.mp h1
      linarith [hx.1, hx1.2]
  · rw [if_neg h]
    refine ⟨?_, h⟩
    constructor
    · intro hx
      exfalso
      have : ((1/100) : ℚ) = 0 := by linarith
      norm_num at this
    · intro hcond
      exact absurd hcond h

/-- Witness for claim C10 at a marble whose post-friction freefall velocity
is exactly (0, 0): the nudge condition holds and velocity.x is nudged. -/
theorem update_velocity_never_both_tiny_witness :
    (|(Marble.updatePreNudge sqrtQ [] mStall).velocity.x| < (1/1000) ∧
     |(Marble.updatePreNudge sqrtQ [] mStall).velocity.y| < (1/1000)) ∧
    (Marble.update sqrtQ [] mStall).velocity.x =
      (Marble.updatePreNudge sqrtQ [] mStall).velocity.x + (1/100) :=
  ⟨by decide,
    ((update_velocity_never_both_tiny sqrtQ [] mStall).1).mpr (by decide)⟩

/-- Claim C6: on a tick in which a path is selected, the velocity right
before the anti-stall nudge is old velocity * (1 - b) + path velocity * b,
with b = (4/5) when the marble was already on a path and (1/2) otherwise,
plus gravity * (3/10) on the y component, both components then scaled by
the global friction (49/50); the path velocity is taken at the snapped x
with the default speed argument. -/
theorem onPath_velocity_blend (msqrt : ℚ → ℚ) (equations : List Equation)
    (m : Marble) (pd : CandidatePath)
    (h : Marble.selectBestPath msqrt equations m = some pd) :
    (Marble.updatePreNudge msqrt equations m).velocity =
      ⟨(m.velocity.x * (1 - (if m.onPath then (4/5) else (1/2))) +
          (PhysicsEngine.calculatePathVelocity msqrt pd.equation
            (m.position.x + (pd.closestPoint.x - m.position.x) *
              PhysicsEngine.pathSnapStrength) none).x *
          (if m.onPath then (4/5) else (1/2))) * (49/50),
       (m.velocity.y * (1 - (if m.onPath then (4/5) else (1/2))) +
          (PhysicsEngine.calculatePathVelocity msqrt pd.equation
            (m.position.x + (pd.closestPoint.x - m.position.x) *
              PhysicsEngine.pathSnapStrength) none).y *
          (if m.onPath then (4/5) else (1/2)) +
          PhysicsEngine.gravity * (3/10)) * (49/50)⟩ := by
  unfold Marble.updatePreNudge Marble.updateVelocityPhase
    PhysicsEngine.updatePosition PhysicsEngine.applyFriction
  rw [h]
  show (⟨(m.velocity.x * (1 - (if m.onPath then (4/5) else (1/2))) +
      (PhysicsEngine.calculatePathVelocity msqrt pd.equation
        (m.position.x + (pd.closestPoint.x - m.position.x) *
          PhysicsEngine.pathSnapStrength) none).x *
      (if m.onPath then (4/5) else (1/2))) * PhysicsEngine.friction,
    (m.velocity.y * (1 - (if m.onPath then (4/5) else (1/2))) +
      (PhysicsEngine.calculatePathVelocity msqrt pd.equation
        (m.position.x + (pd.closestPoint.x - m.position.x) *
          PhysicsEngine.pathSnapStrength) none).y *
      (if m.onPath then (4/5) else (1/2)) +
      PhysicsEngine.gravity * (3/10)) * PhysicsEngine.friction⟩ : Point) = _
  rw [PhysicsEngine.friction]

/-- Witness for claim C6: the fresh marble at the origin joins the curve
y = 0 with blend factor 1/2 and path velocity (3/25, 0), giving the
pre-nudge velocity (833/10000, -441/10000). -/
theorem onPath_velocity_blend_witness :
    Marble.selectBestPath sqrtQ [constEq0] mW = some pdW ∧
    (Marble.updatePreNudge sqrtQ [constEq0] mW).velocity =
      ⟨833/10000, -(441/10000)⟩ := by
  have hsel : Marble.selectBestPath sqrtQ [constEq0] mW = some pdW := by rfl
  refine ⟨hsel, ?_⟩
  rw [onPath_velocity_blend sqrtQ [constEq0] mW pdW hsel]
  decide

/-- Folding an accumulate-and-add step is the same as adding the sum of the
per-element contributions. -/
theorem foldl_add_shift {α : Type} (f : ℚ → α → ℚ) (g : α → ℚ)
    (hfg : ∀ c a, f c a = c + g a) :
    ∀ (l : List α) (c : ℚ), l.foldl f c = c + (l.map g).sum := by
  intro l
  induction l with
  | nil => intro c; simp
  | cons a t ih =>
    intro c
    rw [List.foldl_cons, hfg, ih, List.map_cons, List.sum_cons]
    ring

/-- The source's per-star loop body adds exactly the reference per-star
score taken at the path velocity with the default speed argument. -/
theorem starScoreStep_eq_add_refStarScore (msqrt : ℚ → ℚ) (m : Marble)
    (pd : CandidatePath) (samples : List Point) (c : ℚ) (star : Star) :
    PhysicsEngine.starScoreStep msqrt m pd samples c star =
      c + refStarScore msqrt
        (PhysicsEngine.calculatePathVelocity msqrt pd.equation
          pd.closestPoint.x none) m samples star := by
  unfold PhysicsEngine.starScoreStep refStarScore
  rcases hmd : PhysicsEngine.minDistToStar msqrt samples star with _ | d <;>
    dsimp only <;> split_ifs <;> ring

/-- Counterexample to claim C1 as stated: for the fresh marble at the
origin, the candidate on the curve y = 0 and one uncollected star at
(3, 0), the source's score uses the path velocity (the unit tangent scaled
by pathFollowSpeed = 0.12) in the dot-product bonus, not the unit tangent,
so it differs from the score the claim describes (203.6 versus 230). -/
theorem calculatePathScore_ne_refSpec :
    PhysicsEngine.calculatePathScore sqrtQ mW pdW starsW ≠
      refPathScoreSpec sqrtQ mW pdW starsW := by decide

/-- Claim C1 amended: the path score equals the reference definition with
the dot-product bonus taken against the path tangent velocity at the
candidate's closest point computed with the default speed argument (the
unit tangent scaled by pathFollowSpeed = 0.12), rather than the unit
tangent direction itself. -/
theorem calculatePathScore_eq_refAmended (msqrt : ℚ → ℚ) (m : Marble)
    (pd : CandidatePath) (stars : List Star) :
    PhysicsEngine.calculatePathScore msqrt m pd stars =
      refPathScoreAmended msqrt m pd stars := by
  unfold PhysicsEngine.calculatePathScore refPathScoreAmended refPathScore
  by_cases he : (stars.filter (fun s => !s.collected)).isEmpty
  · rw [if_pos he, if_pos he]
  · rw [if_neg he, if_neg he]
    rw [foldl_add_shift
      (PhysicsEngine.starScoreStep msqrt m pd
        (PhysicsEngine.samplePathPoints pd.equation m.position.x 5 20))
      (refStarScore msqrt
        (PhysicsEngine.calculatePathVelocity msqrt pd.equation
          pd.closestPoint.x none) m
        (PhysicsEngine.samplePathPoints pd.equation m.position.x 5 20))
      (starScoreStep_eq_add_refStarScore msqrt m pd
        (PhysicsEngine.samplePathPoints pd.equation m.position.x 5 20))]
    rw [zero_add]

/-- A first-seen argmax of a nonempty list scores at least its head. -/
theorem argmaxFirst_cons_ge {α : Type} (f : α → ℚ) (a : α) (t : List α) :
    ∀ b, argmaxFirst f (a :: t) = some b → f a ≤ f b := by
  intro b hb
  unfold argmaxFirst at hb
  rcases hT : argmaxFirst f t with _ | b' <;>
    (rw [hT] at hb; dsimp only at hb)
  · cases hb
    exact le_refl _
  · by_cases hgt : f b' > f a
    · rw [if_pos hgt] at hb
      cases hb
      exact le_of_lt hgt
    · rw [if_neg hgt] at hb
      cases hb
      exact le_refl _

/-- A first-seen argmax of a nonempty list always exists. -/
theorem argmaxFirst_cons_isSome {α : Type} (f : α → ℚ) (a : α) (t : List α) :
    (argmaxFirst f (a :: t)).isSome = true := by
  unfold argmaxFirst
  rcases argmaxFirst f t with _ | b
  · rfl
  · dsimp only
    by_cases hgt : f b > f a
    · rw [if_pos hgt]
      rfl
    · rw [if_neg hgt]
      rfl

/-- Prepending a no-better head does not change the first-seen argmax
except for becoming the default, mirroring strict-improvement selection. -/
theorem argmaxFirst_cons_cons {α : Type} (f : α → ℚ) (c a : α) (t : List α) :
    argmaxFirst f (c :: a :: t) =
      if f a > f c then
        match argmaxFirst f (a :: t) with
        | none => some c
        | some b => some b
      else argmaxFirst f (c :: t) := by
  simp only [argmaxFirst]
  rcases hT : argmaxFirst f t with _ | b <;> dsimp only <;> split_ifs <;>
    first
    | rfl
    | (exfalso; linarith)
    | (dsimp only; split_ifs <;> first | rfl | (exfalso; linarith))

/-- The strict-improvement fold of findBestPathTowardStars, seeded with the
head element, computes the first-seen argmax. -/
theorem bestFold_eq_argmaxFirst {α : Type} (f : α → ℚ) :
    ∀ (l : List α) (c : α),
      (l.foldl (PhysicsEngine.bestStep f) (some (c, f c))).map Prod.fst =
      argmaxFirst f (c :: l) := by
  intro l
  induction l with
  | nil => intro c; rfl
  | cons a t ih =>
    intro c
    rw [List.foldl_cons]
    show (t.foldl (PhysicsEngine.bestStep f)
      (if f a > f c then some (a, f a) else some (c, f c))).map
      Prod.fst = argmaxFirst f (c :: a :: t)
    rw [argmaxFirst_cons_cons]
    by_cases hac : f a > f c
    · rw [if_pos hac, if_pos hac, ih a]
      rcases hA : argmaxFirst f (a :: t) with _ | b
      · have hs := argmaxFirst_cons_isSome f a t
        rw [hA] at hs
        simp at hs
      · rfl
    · rw [if_neg hac, if_neg hac, ih c]

/-- Claim C4: findBestPathTowardStars returns none on an empty candidate
list, returns the unique candidate directly, and with two or more
candidates returns the first candidate attaining the maximum score, since
only a strictly greater score replaces the current best. -/
theorem findBestPath_characterization (msqrt : ℚ → ℚ) (m : Marble)
    (stars : List Star) :
    PhysicsEngine.findBestPathTowardStars msqrt m [] stars = none ∧
    (∀ c : CandidatePath,
      PhysicsEngine.findBestPathTowardStars msqrt m [c] stars = some c) ∧
    (∀ l : List CandidatePath, 2 ≤ l.length →
      PhysicsEngine.findBestPathTowardStars msqrt m l stars =
        argmaxFirst (fun pd => PhysicsEngine.calculatePathScore msqrt m pd stars) l) := by
  refine ⟨rfl, fun c => rfl, ?_⟩
  intro l hl
  rcases l with _ | ⟨a, _ | ⟨b, t⟩⟩
  · simp at hl
  · simp at hl
  · unfold PhysicsEngine.findBestPathTowardStars
    have hlen : ¬((a :: b :: t).length ≤ 1) := by
      simp only [List.length_cons]
      omega
    rw [if_neg hlen, List.foldl_cons]
    exact bestFold_eq_argmaxFirst
      (fun pd => PhysicsEngine.calculatePathScore msqrt m pd stars) (b :: t) a

/-- Witness for claim C4 on a two-candidate list. -/
theorem findBestPath_characterization_witness :
    2 ≤ ([pdW, pdW2] : List CandidatePath).length ∧
    PhysicsEngine.findBestPathTowardStars sqrtQ mW [pdW, pdW2] starsW =
      argmaxFirst
        (fun pd => PhysicsEngine.calculatePathScore sqrtQ mW pd starsW)
        [pdW, pdW2] :=
  ⟨by decide,
    (findBestPath_characterization sqrtQ mW starsW).2.2 [pdW, pdW2] (by decide)⟩

/-- The normalized direction-and-distance state the implicit-velocity fold
keeps: nothing selected yet is the direction (1, 0) with distance Infinity,
a selected pair is its normalized delta with its recorded distance. -/
def implicitState (msqrt : ℚ → ℚ) (fdist : Point × Point → ℚ) :
    Option (Point × Point) → Point × Option ℚ
  | none => (⟨1, 0⟩, none)
  | some pr =>
    let dx := pr.2.x - pr.1.x
    let dy := pr.2.y - pr.1.y
    let magnitude := msqrt (dx * dx + dy * dy)
    (⟨dx / magnitude, dy / magnitude⟩, some (fdist pr))

/-- One step of first-seen strict-minimum selection over nonzero pairs. -/
def pickStep (fdist : Point × Point → ℚ) (o : Option (Point × Point))
    (pr : Point × Point) : Option (Point × Point) :=
  if ltOpt (fdist pr) (o.map fdist) ∧ (pr.2.x - pr.1.x ≠ 0 ∨ pr.2.y - pr.1.y ≠ 0)
  then some pr else o

/-- The source's implicit-velocity fold is the selection fold viewed through
implicitState. -/
theorem implicitFold_eq_pickFold (msqrt : ℚ → ℚ) (x : ℚ) :
    ∀ (l : List (Point × Point)) (o : Option (Point × Point)),
      l.foldl (PhysicsEngine.implicitStep msqrt x)
        (implicitState msqrt (fun pr => |pr.2.x - x|) o) =
      implicitState msqrt (fun pr => |pr.2.x - x|)
        (l.foldl (pickStep (fun pr => |pr.2.x - x|)) o) := by
  intro l
  induction l with
  | nil => intro o; rfl
  | cons pr t ih =>
    intro o
    rw [List.foldl_cons, List.foldl_cons]
    have hstate : (implicitState msqrt (fun pr => |pr.2.x - x|) o).2 =
        o.map (fun pr => |pr.2.x - x|) := by
      rcases o with _ | q <;> rfl
    by_cases hcond : ltOpt |pr.2.x - x| (o.map (fun pr => |pr.2.x - x|)) = true ∧
        (pr.2.x - pr.1.x ≠ 0 ∨ pr.2.y - pr.1.y ≠ 0)
    · have h1 : PhysicsEngine.implicitStep msqrt x
          (implicitState msqrt (fun pr => |pr.2.x - x|) o) pr =
          implicitState msqrt (fun pr => |pr.2.x - x|) (some pr) := by
        unfold PhysicsEngine.implicitStep
        rw [hstate, if_pos hcond]
        rfl
      have h2 : pickStep (fun pr => |pr.2.x - x|) o pr = some pr := by
        unfold pickStep
        rw [if_pos hcond]
      rw [h1, h2, ih]
    · have h1 : PhysicsEngine.implicitStep msqrt x
          (implicitState msqrt (fun pr => |pr.2.x - x|) o) pr =
          implicitState msqrt (fun pr => |pr.2.x - x|) o := by
        unfold PhysicsEngine.implicitStep
        rw [hstate, if_neg hcond]
      have h2 : pickStep (fun pr => |pr.2.x - x|) o pr = o := by
        unfold pickStep
        rw [if_neg hcond]
      rw [h1, h2, ih]

/-- First-seen strict-minimum selection is the first-seen argmin over the
nonzero pairs. -/
theorem pickFold_eq_argminFirst (fdist : Point × Point → ℚ) :
    ∀ (l : List (Point × Point)) (o : Option (Point × Point)),
      l.foldl (pickStep fdist) o =
        (l.filter pairNonzero).foldl (argminStep fdist) o := by
  intro l
  induction l with
  | nil => intro o; rfl
  | cons pr t ih =>
    intro o
    rw [List.foldl_cons]
    by_cases hz : pairNonzero pr = true
    · rw [List.filter_cons_of_pos hz, List.foldl_cons, ih]
      have hz' : pr.2.x - pr.1.x ≠ 0 ∨ pr.2.y - pr.1.y ≠ 0 := by
        unfold pairNonzero at hz
        exact decide_eq_true_iff.mp hz
      have hseed : pickStep fdist o pr = argminStep fdist o pr := by
        unfold pickStep argminStep
        rcases o with _ | q
        · rw [if_pos ⟨rfl, hz'⟩]
        · simp only [Option.map_some']
          by_cases hlt : fdist pr < fdist q
          · rw [if_pos ⟨by simp [ltOpt, hlt], hz'⟩]
            exact (if_pos hlt).symm
          · rw [if_neg, (if_neg hlt)]
            rintro ⟨hl, _⟩
            simp only [ltOpt, decide_eq_true_iff] at hl
            exact hlt hl
      rw [hseed]
    · rw [List.filter_cons_of_neg hz]
      have hseed : pickStep fdist o pr = o := by
        unfold pickStep
        rw [if_neg]
        rintro ⟨_, hnz⟩
        exact hz (by simpa [pairNonzero] using hnz)
      rw [hseed]
      exact ih o

/-- Counterexample to claim C5 as stated: on a three-point cloud the source
selects the pair whose SECOND point is closest in x to the query, so its
result (-1, 0) differs from the (0, 1) the first-point rule of the claim
produces. -/
theorem implicitVelocity_ne_refSpec :
    PhysicsEngine.calculateImplicitVelocity sqrtQ implicitCloudEq 0 1 ≠
      refImplicitTangentSpec sqrtQ implicitCloudEq 0 1 := by decide

/-- From the none seed, the selection fold is the first-seen argmin over
the nonzero pairs. -/
theorem pickFold_none_eq_argminFirst (fdist : Point × Point → ℚ)
    (l : List (Point × Point)) :
    l.foldl (pickStep fdist) none =
      argminFirst fdist (l.filter pairNonzero) := by
  rw [pickFold_eq_argminFirst]
  rfl

/-- Claim C5 amended: the implicit tangent estimate picks, among
consecutive nonzero sampled-point pairs, the pair whose SECOND point is
closest in x to the query (first-seen wins on ties), returning the
normalized delta of that pair scaled by speed; with fewer than 2 points it
returns (speed, 0). -/
theorem implicitVelocity_eq_refAmended (msqrt : ℚ → ℚ) (eq : Equation)
    (x speed : ℚ) :
    PhysicsEngine.calculateImplicitVelocity msqrt eq x speed =
      refImplicitTangentAmended msqrt eq x speed := by
  unfold PhysicsEngine.calculateImplicitVelocity refImplicitTangentAmended
    refImplicitTangent
  dsimp only
  generalize eq.getPoints (x - (1/10)) (x + (1/10)) (-10) 10 20 = ps
  by_cases hlen : ps.length < 2
  · rw [if_pos hlen, if_pos hlen]
  · rw [if_neg hlen, if_neg hlen]
    have hB : (ps.zip ps.tail).foldl (PhysicsEngine.implicitStep msqrt x)
        (⟨1, 0⟩, none) =
        implicitState msqrt (fun pr => |pr.2.x - x|)
          (argminFirst (fun pr => |pr.2.x - x|)
            ((ps.zip ps.tail).filter pairNonzero)) := by
      have h0 := implicitFold_eq_pickFold msqrt x (ps.zip ps.tail) none
      rw [pickFold_none_eq_argminFirst] at h0
      exact h0
    rw [hB]
    rcases hr : argminFirst (fun pr => |pr.2.x - x|)
        ((ps.zip ps.tail).filter pairNonzero) with _ | pr <;> rw [hr]
    · show (⟨speed * 1, speed * 0⟩ : Point) = ⟨speed, 0⟩
      rw [mul_one, mul_zero]
    · rfl

/-- Case analysis of the scanning fold of findClosestPointExplicitY: either
no sample beat the starting accumulator and it is returned unchanged, or
the fold returns a successfully evaluated sample that beats the starting
accumulator and whose distance is minimal among all successful samples. -/
theorem scanFold_cases (msqrt : ℚ → ℚ) (eqn : Equation) (mx my : ℚ) :
    ∀ (l : List ℚ) (acc : ℚ × Option ℚ),
      (l.foldl (PhysicsEngine.scanStep msqrt eqn mx my) acc = acc ∧
        ∀ x ∈ l, ∀ y, eqn.evaluate x = some y →
          ltOpt (PhysicsEngine.scanDist msqrt mx my x y) acc.2 = false) ∨
      (∃ xm ym, xm ∈ l ∧ eqn.evaluate xm = some ym ∧
        l.foldl (PhysicsEngine.scanStep msqrt eqn mx my) acc =
          (xm, some (PhysicsEngine.scanDist msqrt mx my xm ym)) ∧
        ltOpt (PhysicsEngine.scanDist msqrt mx my xm ym) acc.2 = true ∧
        ∀ x' ∈ l, ∀ y', eqn.evaluate x' = some y' →
          PhysicsEngine.scanDist msqrt mx my xm ym ≤
            PhysicsEngine.scanDist msqrt mx my x' y') := by
  intro l
  induction l with
  | nil =>
    intro acc
    exact Or.inl ⟨rfl, by simp⟩
  | cons a t ih =>
    intro acc
    rw [List.foldl_cons]
    rcases hev : eqn.evaluate a with _ | ya
    · have hstep : PhysicsEngine.scanStep msqrt eqn mx my acc a = acc := by
        unfold PhysicsEngine.scanStep
        rw [hev]
      rw [hstep]
      rcases ih acc with ⟨hfold, hall⟩ | ⟨xm, ym, hmem, hevm, hfold, hltm, hmin⟩
      · refine Or.inl ⟨hfold, ?_⟩
        intro x hx y hy
        rcases List.mem_cons.mp hx with hx | hx
        · subst hx
          rw [hev] at hy
          exact Option.noConfusion hy
        · exact hall x hx y hy
      · refine Or.inr ⟨xm, ym, List.mem_cons_of_mem a hmem, hevm, hfold, hltm, ?_⟩
        intro x' hx' y' hy'
        rcases List.mem_cons.mp hx' with hx' | hx'
        · subst hx'
          rw [hev] at hy'
          exact Option.noConfusion hy'
        · exact hmin x' hx' y' hy'
    · cases hlt : ltOpt (PhysicsEngine.scanDist msqrt mx my a ya) acc.2
      · have hstep : PhysicsEngine.scanStep msqrt eqn mx my acc a = acc := by
          unfold PhysicsEngine.scanStep
          rw [hev]
          dsimp only
          rw [if_neg]
          intro hc
          rw [hlt] at hc
          exact Bool.noConfusion hc
        rw [hstep]
        rcases ih acc with ⟨hfold, hall⟩ | ⟨xm, ym, hmem, hevm, hfold, hltm, hmin⟩
        · refine Or.inl ⟨hfold, ?_⟩
          intro x hx y hy
          rcases List.mem_cons.mp hx with hx | hx
          · subst hx
            rw [hev] at hy
            cases hy
            exact hlt
          · exact hall x hx y hy
        · refine Or.inr ⟨xm, ym, List.mem_cons_of_mem a hmem, hevm, hfold, hltm, ?_⟩
          intro x' hx' y' hy'
          rcases List.mem_cons.mp hx' with hx' | hx'
          · subst hx'
            rw [hev] at hy'
            cases hy'
            rcases hacc : acc.2 with _ | macc
            · rw [hacc] at hlt
              exact absurd hlt (by simp [ltOpt])
            · rw [hacc] at hlt hltm
              simp only [ltOpt, decide_eq_true_iff] at hltm
              simp only [ltOpt] at hlt
              rw [decide_eq_false_iff_not, not_lt] at hlt
              linarith
          · exact hmin x' hx' y' hy'
      · have hstep : PhysicsEngine.scanStep msqrt eqn mx my acc a =
            (a, some (PhysicsEngine.scanDist msqrt mx my a ya)) := by
          unfold PhysicsEngine.scanStep
          rw [hev]
          dsimp only
          rw [if_pos hlt]
        rw [hstep]
        rcases ih (a, some (PhysicsEngine.scanDist msqrt mx my a ya)) with
          ⟨hfold, hall⟩ | ⟨xm, ym, hmem, hevm, hfold, hltm, hmin⟩
        · refine Or.inr ⟨a, ya, List.mem_cons_self a t, hev, hfold, hlt, ?_⟩
          intro x' hx' y' hy'
          rcases List.mem_cons.mp hx' with hx' | hx'
          · subst hx'
            rw [hev] at hy'
            cases hy'
            exact le_refl _
          · have hfa := hall x' hx' y' hy'
            dsimp only at hfa
            simp only [ltOpt] at hfa
            rw [decide_eq_false_iff_not, not_lt] at hfa
            exact hfa
        · have hda : PhysicsEngine.scanDist msqrt mx my xm ym <
              PhysicsEngine.scanDist msqrt mx my a ya := by
            dsimp only at hltm
            simp only [ltOpt, decide_eq_true_iff] at hltm
            exact hltm
          refine Or.inr ⟨xm, ym, List.mem_cons_of_mem a hmem, hevm, hfold, ?_, ?_⟩
          · rcases hacc : acc.2 with _ | macc
            · rfl
            · rw [hacc] at hlt
              simp only [ltOpt, decide_eq_true_iff] at hlt
              simp only [ltOpt, decide_eq_true_iff]
              linarith
          · intro x' hx' y' hy'
            rcases List.mem_cons.mp hx' with hx' | hx'
            · subst hx'
              rw [hev] at hy'
              cases hy'
              exact le_of_lt hda
            · exact hmin x' hx' y' hy'

/-- Claim C7: for an explicit-y or piecewise equation, the closest-point
query scans x over [max(-10, mx - r), min(10, mx + r)] with step 0.05,
skips x where the evaluation fails, and as soon as one scanned sample
succeeds it returns a point (x, eq(x)) on the grid minimizing the distance
to the marble together with that distance; a none result means every
scanned sample failed to evaluate. -/
theorem closestPointExplicitY_minimizer (msqrt : ℚ → ℚ) (m : Marble)
    (eqn : Equation) (r : ℚ)
    (hk : eqn.type = EqKind.explicit_y ∨ eqn.type = EqKind.piecewise) :
    (∀ x0 y0,
      x0 ∈ gridPoints (max (-10) (m.position.x - r)) (min 10 (m.position.x + r))
        (1/20) →
      eqn.evaluate x0 = some y0 →
      ∃ p : ClosestPoint,
        PhysicsEngine.findClosestPointOnPath msqrt m eqn r = some p ∧
        p.x ∈ gridPoints (max (-10) (m.position.x - r))
          (min 10 (m.position.x + r)) (1/20) ∧
        eqn.evaluate p.x = some p.y ∧
        p.distance =
          some (PhysicsEngine.scanDist msqrt m.position.x m.position.y p.x p.y) ∧
        ∀ x' ∈ gridPoints (max (-10) (m.position.x - r))
            (min 10 (m.position.x + r)) (1/20), ∀ y',
          eqn.evaluate x' = some y' →
          PhysicsEngine.scanDist msqrt m.position.x m.position.y p.x p.y ≤
            PhysicsEngine.scanDist msqrt m.position.x m.position.y x' y') ∧
    (PhysicsEngine.findClosestPointOnPath msqrt m eqn r = none →
      ∀ x' ∈ gridPoints (max (-10) (m.position.x - r))
        (min 10 (m.position.x + r)) (1/20), eqn.evaluate x' = none) := by
  have hdisp : PhysicsEngine.findClosestPointOnPath msqrt m eqn r =
      PhysicsEngine.findClosestPointExplicitY msqrt m eqn r := by
    unfold PhysicsEngine.findClosestPointOnPath
    rcases hk with hk | hk <;> rw [hk]
  have hmain : ∀ x0 y0,
      x0 ∈ gridPoints (max (-10) (m.position.x - r)) (min 10 (m.position.x + r))
        (1/20) →
      eqn.evaluate x0 = some y0 →
      ∃ p : ClosestPoint,
        PhysicsEngine.findClosestPointOnPath msqrt m eqn r = some p ∧
        p.x ∈ gridPoints (max (-10) (m.position.x - r))
          (min 10 (m.position.x + r)) (1/20) ∧
        eqn.evaluate p.x = some p.y ∧
        p.distance =
          some (PhysicsEngine.scanDist msqrt m.position.x m.position.y p.x p.y) ∧
        ∀ x' ∈ gridPoints (max (-10) (m.position.x - r))
            (min 10 (m.position.x + r)) (1/20), ∀ y',
          eqn.evaluate x' = some y' →
          PhysicsEngine.scanDist msqrt m.position.x m.position.y p.x p.y ≤
            PhysicsEngine.scanDist msqrt m.position.x m.position.y x' y' := by
    intro x0 y0 hx0 hev0
    rcases scanFold_cases msqrt eqn m.position.x m.position.y
        (gridPoints (max (-10) (m.position.x - r)) (min 10 (m.position.x + r))
          (1/20)) (m.position.x, none) with
      ⟨_, hall⟩ | ⟨xm, ym, hmem, hevm, hfold, _, hmin⟩
    · have := hall x0 hx0 y0 hev0
      simp [ltOpt] at this
    · refine ⟨⟨xm, ym, some (PhysicsEngine.scanDist msqrt m.position.x
        m.position.y xm ym)⟩, ?_, hmem, hevm, rfl, hmin⟩
      rw [hdisp]
      unfold PhysicsEngine.findClosestPointExplicitY
      dsimp only
      rw [hfold]
      dsimp only
      rw [hevm]
  refine ⟨hmain, ?_⟩
  intro hnone x' hx'
  rcases hev' : eqn.evaluate x' with _ | y'
  · rfl
  · exfalso
    obtain ⟨p, hp, _⟩ := hmain x' y' hx' hev'
    rw [hnone] at hp
    exact Option.noConfusion hp

/-- Witness for claim C7: the fresh marble at the origin on the curve y = 0
with search radius 1/20, where the scanned grid is -1/20, 0, 1/20 and the
sample at x = 0 succeeds. -/
theorem closestPointExplicitY_minimizer_witness :
    ((0 : ℚ) ∈ gridPoints (max (-10) ((Marble.init 0 0).position.x - 1/20))
      (min 10 ((Marble.init 0 0).position.x + 1/20)) (1/20)) ∧
    constEq0.evaluate 0 = some 0 ∧
    (∃ p : ClosestPoint,
      PhysicsEngine.findClosestPointOnPath sqrtQ (Marble.init 0 0) constEq0
        (1/20) = some p ∧
      p.x ∈ gridPoints (max (-10) ((Marble.init 0 0).position.x - 1/20))
        (min 10 ((Marble.init 0 0).position.x + 1/20)) (1/20) ∧
      constEq0.evaluate p.x = some p.y ∧
      p.distance = some (PhysicsEngine.scanDist sqrtQ
        (Marble.init 0 0).position.x (Marble.init 0 0).position.y p.x p.y) ∧
      ∀ x' ∈ gridPoints (max (-10) ((Marble.init 0 0).position.x - 1/20))
          (min 10 ((Marble.init 0 0).position.x + 1/20)) (1/20), ∀ y',
        constEq0.evaluate x' = some y' →
        PhysicsEngine.scanDist sqrtQ (Marble.init 0 0).position.x
          (Marble.init 0 0).position.y p.x p.y ≤
          PhysicsEngine.scanDist sqrtQ (Marble.init 0 0).position.x
            (Marble.init 0 0).position.y x' y') :=
  ⟨by decide, rfl,
    (closestPointExplicitY_minimizer sqrtQ (Marble.init 0 0) constEq0 (1/20)
      (Or.inl rfl)).1 0 0 (by decide) rfl⟩

end GraphGame
